import Mathlib

/-!
Shallow embedding of boost/math/distributions/poisson.hpp (Boost.Math, 2006
vintage) and verification of the claims about it.

The C++ code is templated over a floating-point RealType; we embed it over an
arbitrary linearly ordered field with a floor operation.  Exact real
arithmetic stands in for floating point, and the IEEE special values that the
validation code inspects (NaN, +inf, -inf) are modelled explicitly by the
type Fp below, with IEEE comparison semantics (every comparison involving NaN
is false).

The incomplete-gamma family, exp, log, lgamma, expm1 and sqrt are external
collaborators of this header (they live in other parts of Boost / the C
library, outside this repository snapshot).  Following the spec, which
declares them out of scope and "assumed correct", the embedding is
parameterized by a record of these functions (Collaborators), and the
properties the proofs assume of them are collected in CollabOK.
-/

namespace Poisson

/-- A floating-point datum: either a finite value of the element type, or one
of the IEEE special values inspected by the validation code. -/
inductive Fp (a : Type) where
  | finite (x : a)
  | posInf
  | negInf
  | nan
deriving DecidableEq

variable {a : Type} [LinearOrderedField a] [FloorRing a]

/-- boost::math::isfinite.  True exactly on finite values. -/
def Fp.isfinite : Fp a → Bool
  | .finite _ => true
  | _ => false

/-- IEEE `<`: false whenever either operand is NaN. -/
def Fp.blt : Fp a → Fp a → Bool
  | .nan, _ => false
  | _, .nan => false
  | .finite x, .finite y => decide (x < y)
  | .finite _, .posInf => true
  | .finite _, .negInf => false
  | .posInf, _ => false
  | .negInf, .negInf => false
  | .negInf, _ => true

/-- IEEE `<=`: false whenever either operand is NaN. -/
def Fp.ble : Fp a → Fp a → Bool
  | .nan, _ => false
  | _, .nan => false
  | .finite x, .finite y => decide (x ≤ y)
  | .finite _, .posInf => true
  | .finite _, .negInf => false
  | .posInf, .posInf => true
  | .posInf, _ => false
  | .negInf, _ => true

/-- IEEE `==`: false whenever either operand is NaN (NaN != NaN). -/
def Fp.beq : Fp a → Fp a → Bool
  | .nan, _ => false
  | _, .nan => false
  | .finite x, .finite y => decide (x = y)
  | .posInf, .posInf => true
  | .negInf, .negInf => true
  | _, _ => false

/-- IEEE unary negation. -/
def Fp.negF : Fp a → Fp a
  | .finite x => .finite (-x)
  | .posInf => .negInf
  | .negInf => .posInf
  | .nan => .nan

/-- std::floor lifted to Fp (floor of an infinity is itself, floor of NaN is
NaN). -/
def Fp.floorF : Fp a → Fp a
  | .finite x => .finite (⌊x⌋ : a)
  | .posInf => .posInf
  | .negInf => .negInf
  | .nan => .nan

/-- The external numeric collaborators consumed by poisson.hpp: the standard
math functions and the incomplete-gamma engine, plus the type-dependent
factorial-table bound max_factorial<RealType>::value. -/
structure Collaborators (a : Type) where
  exp : a → a
  log : a → a
  expm1 : a → a
  sqrt : a → a
  lgamma : a → a
  gamma_P : a → a → a
  gamma_Q : a → a → a
  gamma_P_inva : a → a → a
  gamma_Q_inva : a → a → a
  max_factorial : ℕ

/-- std::exp lifted to Fp with its IEEE special-value behaviour:
exp(-inf) = 0, exp(+inf) = +inf, exp(NaN) = NaN. -/
def Collaborators.expF (C : Collaborators a) : Fp a → Fp a
  | .finite x => .finite (C.exp x)
  | .posInf => .posInf
  | .negInf => .finite 0
  | .nan => .nan

/-- std::expm1 lifted to Fp with its IEEE special-value behaviour:
expm1(-inf) = -1, expm1(+inf) = +inf, expm1(NaN) = NaN. -/
def Collaborators.expm1F (C : Collaborators a) : Fp a → Fp a
  | .finite x => .finite (C.expm1 x)
  | .posInf => .posInf
  | .negInf => .finite (-1)
  | .nan => .nan

/-- The single error kind of the component, tagged with which validator
produced it and the offending value (the information carried by the
domain_error message in the source). -/
inductive DomainError (a : Type) where
  | meanNotNonneg (mean : Fp a)
  | meanNotPositive (mean : Fp a)
  | kInvalid (k : Fp a)
  | probInvalid (p : Fp a)
deriving DecidableEq

/-- poisson_detail::check_mean: fails when the mean is non-finite or
negative. -/
def check_mean (mean : Fp a) : Option (DomainError a) :=
  if !mean.isfinite || mean.blt (.finite 0) then some (.meanNotNonneg mean) else none

/-- poisson_detail::check_mean_NZ: fails when the mean is non-finite or ≤ 0
(mean == 0 is considered an error). -/
def check_mean_NZ (mean : Fp a) : Option (DomainError a) :=
  if !mean.isfinite || mean.ble (.finite 0) then some (.meanNotPositive mean) else none

/-- poisson_detail::check_dist: delegates to check_mean_NZ. -/
def check_dist (mean : Fp a) : Option (DomainError a) :=
  check_mean_NZ mean

/-- poisson_detail::check_k: fails when k is negative or non-finite. -/
def check_k (k : Fp a) : Option (DomainError a) :=
  if k.blt (.finite 0) || !k.isfinite then some (.kInvalid k) else none

/-- poisson_detail::check_prob: fails when p is non-finite, < 0, or > 1. -/
def check_prob (p : Fp a) : Option (DomainError a) :=
  if !p.isfinite || p.blt (.finite 0) || Fp.blt (.finite 1) p then
    some (.probInvalid p)
  else none

/-- poisson_detail::check_dist_and_k.  The C++ short-circuit `||` evaluates
check_dist first; check_k runs (and can write the result slot) only when the
mean check passed. -/
def check_dist_and_k (mean k : Fp a) : Option (DomainError a) :=
  match check_dist mean with
  | some e => some e
  | none => check_k k

/-- poisson_detail::check_dist_and_prob, same short-circuit shape. -/
def check_dist_and_prob (mean p : Fp a) : Option (DomainError a) :=
  match check_dist mean with
  | some e => some e
  | none => check_prob p

/-- poisson_distribution<RealType>: stores the mean as given (an invalid mean
is stored anyway; the constructor merely reports the error and every
operation re-validates). -/
structure poisson_distribution (a : Type) where
  m_l : Fp a

/-- poisson_distribution::mean accessor. -/
def poisson_distribution.mean (d : poisson_distribution a) : Fp a :=
  d.m_l

/-- The constructor: stores the mean unconditionally and runs check_dist,
whose outcome goes to the error reporter. -/
def makePoisson (mean : Fp a) : poisson_distribution a × Option (DomainError a) :=
  (⟨mean⟩, check_dist mean)

/-- mode(dist) = floor(mean). -/
def mode (d : poisson_distribution a) : Fp a :=
  d.mean.floorF

/-- variance(dist) = mean. -/
def variance (d : poisson_distribution a) : Fp a :=
  d.mean

/-- skewness(dist) = 1 / sqrt(mean).  A non-finite mean propagates through
the sqrt collaborator and the division; outside the validated domain we
model the outcome as NaN. -/
def skewness (C : Collaborators a) (d : poisson_distribution a) : Fp a :=
  match d.mean with
  | .finite m => .finite (1 / C.sqrt m)
  | _ => .nan

/-- kurtosis_excess(dist) = 1 / mean (non-finite mean modelled as NaN, as in
skewness). -/
def kurtosis_excess (d : poisson_distribution a) : Fp a :=
  match d.mean with
  | .finite m => .finite (1 / m)
  | _ => .nan

/-- kurtosis(dist) = 3 + 1 / mean (non-finite mean modelled as NaN). -/
def kurtosis (d : poisson_distribution a) : Fp a :=
  match d.mean with
  | .finite m => .finite (3 + 1 / m)
  | _ => .nan

/-- The factorial fast-path guard in pdf: `(floork == k) && (k <
max_factorial<RealType>::value)`. -/
abbrev usesFactorialPath (C : Collaborators a) (k : a) : Prop :=
  (⌊k⌋ : a) = k ∧ k < (C.max_factorial : a)

/-- The arithmetic body of pdf, reached once check_dist_and_k has passed (so
mean and k are finite; the `mean == 0` branch is retained verbatim from the
source even though check_dist already rejects mean ≤ 0).  The factorial fast
path uses the exact factorial table, modelled by Nat.factorial; std::pow at
an exactly integral exponent is iterated multiplication. -/
def pdfBody (C : Collaborators a) (mean k : a) : a :=
  if mean = 0 then 0
  else if k = 0 then C.exp (-mean)
  else if usesFactorialPath C k then
    C.exp (-mean) * mean ^ (⌊k⌋.toNat) / ((⌊k⌋.toNat).factorial : a)
  else C.exp (-mean + C.log mean * k - C.lgamma (k + 1))

/-- pdf(dist, k).  Validation first (mean before k, short-circuit), then the
arithmetic body.  The fall-through arm is unreachable: check_dist_and_k =
none forces both arguments finite (lemma check_dist_and_k_none below). -/
def pdf (C : Collaborators a) (d : poisson_distribution a) (k : Fp a) :
    Except (DomainError a) a :=
  match check_dist_and_k d.mean k with
  | some e => .error e
  | none =>
    match d.mean, k with
    | .finite m, .finite kv => .ok (pdfBody C m kv)
    | _, _ => .ok 0

/-- The arithmetic body of cdf (the dead `mean == 0` branch again retained
verbatim). -/
def cdfBody (C : Collaborators a) (mean k : a) : a :=
  if mean = 0 then 0
  else if k = 0 then C.exp (-mean)
  else C.gamma_Q (k + 1) mean

/-- cdf(dist, k). -/
def cdf (C : Collaborators a) (d : poisson_distribution a) (k : Fp a) :
    Except (DomainError a) a :=
  match check_dist_and_k d.mean k with
  | some e => .error e
  | none =>
    match d.mean, k with
    | .finite m, .finite kv => .ok (cdfBody C m kv)
    | _, _ => .ok 0

/-- The arithmetic body of the complemented cdf. -/
def cdf_complementBody (C : Collaborators a) (mean k : a) : a :=
  if mean = 0 then 1
  else if k = 0 then -(C.expm1 (-mean))
  else C.gamma_P (k + 1) mean

/-- cdf(complement(dist, k)). -/
def cdf_complement (C : Collaborators a) (d : poisson_distribution a) (k : Fp a) :
    Except (DomainError a) a :=
  match check_dist_and_k d.mean k with
  | some e => .error e
  | none =>
    match d.mean, k with
    | .finite m, .finite kv => .ok (cdf_complementBody C m kv)
    | _, _ => .ok 0

/-- quantile(dist, p).  Faithful to the source: only p is validated
up-front; the mean is checked (by check_mean_NZ) only inside the
`dist.mean() == 0` branch, where that check necessarily fails.  A non-finite
mean therefore reaches the arithmetic: the boundary comparison
`p <= exp(-mean)` is evaluated with IEEE special-value rules, and if the
inverse-gamma call is reached with a non-finite mean the collaborator
behaviour is outside this model and is represented as NaN. -/
def quantile (C : Collaborators a) (d : poisson_distribution a) (p : Fp a) :
    Except (DomainError a) (Fp a) :=
  match check_prob p with
  | some e => .error e
  | none =>
    match (if d.mean.beq (.finite 0) then check_mean_NZ d.mean else none) with
    | some e => .error e
    | none =>
      if p.ble (C.expF d.mean.negF) then .ok (.finite 0)
      else
        match d.mean, p with
        | .finite m, .finite pv => .ok (.finite (C.gamma_Q_inva m pv - 1))
        | _, _ => .ok .nan

/-- quantile(complement(dist, q)), with the literal boundary comparison
`-q <= expm1(-mean)` from the source.  Same validation shape as quantile. -/
def quantile_complement (C : Collaborators a) (d : poisson_distribution a) (q : Fp a) :
    Except (DomainError a) (Fp a) :=
  match check_prob q with
  | some e => .error e
  | none =>
    match (if d.mean.beq (.finite 0) then check_mean_NZ d.mean else none) with
    | some e => .error e
    | none =>
      if q.negF.ble (C.expm1F d.mean.negF) then .ok (.finite 0)
      else
        match d.mean, q with
        | .finite m, .finite qv => .ok (.finite (C.gamma_P_inva m qv - 1))
        | _, _ => .ok .nan

/-- The correctness properties the spec assumes of the out-of-scope
collaborators (incomplete gamma engine, exp, expm1) and that the proofs
below rely on: P and Q are complementary, Q is strictly increasing in its
first argument, Q(1, x) = exp(-x) (hence P(1, x) = 1 - exp(-x)), the inva
functions invert P and Q with respect to the first argument, exp is
positive, expm1 x = exp x - 1, and the degenerate inverse gamma_P_inva(x, 0)
is not 1 (the true value is unbounded). -/
structure CollabOK (C : Collaborators a) : Prop where
  exp_pos : ∀ x : a, 0 < C.exp x
  expm1_eq : ∀ x : a, C.expm1 x = C.exp x - 1
  gamma_sum : ∀ s x : a, 0 < s → 0 < x → C.gamma_P s x + C.gamma_Q s x = 1
  gamma_Q_mono : ∀ s t x : a, 0 < s → s < t → 0 < x → C.gamma_Q s x < C.gamma_Q t x
  gamma_Q_one : ∀ x : a, 0 < x → C.gamma_Q 1 x = C.exp (-x)
  gamma_Q_inva_pos : ∀ x p : a, 0 < x → 0 < p → p < 1 → 0 < C.gamma_Q_inva x p
  gamma_Q_inva_eq : ∀ x p : a, 0 < x → 0 < p → p < 1 →
    C.gamma_Q (C.gamma_Q_inva x p) x = p
  gamma_P_inva_pos : ∀ x q : a, 0 < x → 0 < q → q < 1 → 0 < C.gamma_P_inva x q
  gamma_P_inva_eq : ∀ x q : a, 0 < x → 0 < q → q < 1 →
    C.gamma_P (C.gamma_P_inva x q) x = q
  gamma_P_inva_zero : ∀ x : a, 0 < x → C.gamma_P_inva x 0 ≠ 1

/-- Degree-12 truncated Taylor series of exp over ℚ, the computable stand-in
used to instantiate the exp collaborator in concrete witnesses. -/
def qexpT (x : ℚ) : ℚ :=
  1 + x + x ^ 2 / 2 + x ^ 3 / 6 + x ^ 4 / 24 + x ^ 5 / 120 + x ^ 6 / 720 +
    x ^ 7 / 5040 + x ^ 8 / 40320 + x ^ 9 / 362880 + x ^ 10 / 3628800 +
    x ^ 11 / 39916800 + x ^ 12 / 479001600

/-- Positive exp stand-in: the truncated Taylor value where it is positive
(everywhere it is evaluated below), guarded so that positivity holds
unconditionally. -/
def qexp (x : ℚ) : ℚ :=
  if 0 < qexpT x then qexpT x else 1

/-- A concrete, computable collaborator record over ℚ satisfying CollabOK,
used to instantiate witnesses and counterexamples.  gamma_Q s x = s*exp(-x)
and gamma_P s x = 1 - s*exp(-x) satisfy every property the spec assumes of
the incomplete-gamma engine that the claims rely on (complementarity, strict
monotonicity in the first argument, Q(1,x) = exp(-x), exact inverses); log,
sqrt and lgamma are unconstrained stand-ins (no assumed property involves
them). -/
def qCollab : Collaborators ℚ where
  exp := qexp
  log := fun _ => 0
  expm1 := fun x => qexp x - 1
  sqrt := fun _ => 0
  lgamma := fun _ => 0
  gamma_P := fun s x => 1 - s * qexp (-x)
  gamma_Q := fun s x => s * qexp (-x)
  gamma_P_inva := fun x q => if q = 0 then 2 else (1 - q) / qexp (-x)
  gamma_Q_inva := fun x p => p / qexp (-x)
  max_factorial := 171

theorem qexp_pos (x : ℚ) : 0 < qexp x := by
  unfold qexp
  split
  · assumption
  · norm_num

theorem qCollabOK : CollabOK qCollab := by
  constructor
  · exact qexp_pos
  · intro x; rfl
  · intro s x _ _
    show 1 - s * qexp (-x) + s * qexp (-x) = 1
    ring
  · intro s t x _ hst _
    exact mul_lt_mul_of_pos_right hst (qexp_pos (-x))
  · intro x _
    show 1 * qexp (-x) = qexp (-x)
    ring
  · intro x p _ hp _
    exact div_pos hp (qexp_pos (-x))
  · intro x p _ _ _
    show p / qexp (-x) * qexp (-x) = p
    exact div_mul_cancel₀ p (qexp_pos (-x)).ne'
  · intro x q _ hq hq1
    show 0 < qCollab.gamma_P_inva x q
    show 0 < if q = 0 then 2 else (1 - q) / qexp (-x)
    rw [if_neg hq.ne']
    exact div_pos (by linarith) (qexp_pos (-x))
  · intro x q _ hq hq1
    show 1 - (if q = 0 then 2 else (1 - q) / qexp (-x)) * qexp (-x) = q
    rw [if_neg hq.ne', div_mul_cancel₀ _ (qexp_pos (-x)).ne']
    ring
  · intro x _
    show (if (0:ℚ) = 0 then 2 else (1 - 0) / qexp (-x)) ≠ 1
    norm_num

/-! ### Behaviour of the validators -/

theorem check_mean_NZ_pos {m : a} (hm : 0 < m) :
    check_mean_NZ (.finite m) = none := by
  simp [check_mean_NZ, Fp.isfinite, Fp.ble, not_le.mpr hm]

theorem check_mean_NZ_fail {mean : Fp a}
    (h : mean.isfinite = false ∨ mean.ble (.finite 0) = true) :
    check_mean_NZ mean = some (.meanNotPositive mean) := by
  rcases h with h | h
  · simp [check_mean_NZ, h]
  · simp [check_mean_NZ, h]

theorem check_dist_pos {m : a} (hm : 0 < m) :
    check_dist (.finite m) = none :=
  check_mean_NZ_pos hm

theorem check_k_nonneg {kv : a} (hk : 0 ≤ kv) :
    check_k (.finite kv) = none := by
  simp [check_k, Fp.isfinite, Fp.blt, not_lt.mpr hk]

theorem check_prob_valid {pv : a} (h0 : 0 ≤ pv) (h1 : pv ≤ 1) :
    check_prob (.finite pv) = none := by
  simp [check_prob, Fp.isfinite, Fp.blt, not_lt.mpr h0, not_lt.mpr h1]

theorem check_dist_and_k_valid {m kv : a} (hm : 0 < m) (hk : 0 ≤ kv) :
    check_dist_and_k (.finite m) (.finite kv) = none := by
  unfold check_dist_and_k
  rw [check_dist_pos hm, check_k_nonneg hk]

/-- A mean accepted by check_dist is finite and strictly positive. -/
theorem check_dist_none {mean : Fp a} (h : check_dist mean = none) :
    ∃ m : a, mean = .finite m ∧ 0 < m := by
  cases mean with
  | finite m =>
    refine ⟨m, rfl, ?_⟩
    by_contra hm
    rw [check_dist, check_mean_NZ_fail (Or.inr (by simp [Fp.ble, not_lt.mp hm]))] at h
    exact absurd h (by simp)
  | posInf => simp [check_dist, check_mean_NZ, Fp.isfinite] at h
  | negInf => simp [check_dist, check_mean_NZ, Fp.isfinite] at h
  | nan => simp [check_dist, check_mean_NZ, Fp.isfinite] at h

/-- A k accepted by check_k is finite and non-negative. -/
theorem check_k_none {k : Fp a} (h : check_k k = none) :
    ∃ kv : a, k = .finite kv ∧ 0 ≤ kv := by
  cases k with
  | finite kv =>
    refine ⟨kv, rfl, ?_⟩
    by_contra hk
    simp [check_k, Fp.blt, Fp.isfinite, not_le.mp hk] at h
  | posInf => simp [check_k, Fp.blt, Fp.isfinite] at h
  | negInf => simp [check_k, Fp.blt, Fp.isfinite] at h
  | nan => simp [check_k, Fp.blt, Fp.isfinite] at h

/-- Passing the combined check forces both arguments to be finite and in
range; in particular the fall-through arms of pdf/cdf are unreachable. -/
theorem check_dist_and_k_none {mean k : Fp a}
    (h : check_dist_and_k mean k = none) :
    ∃ m kv : a, mean = .finite m ∧ k = .finite kv ∧ 0 < m ∧ 0 ≤ kv := by
  have hd : check_dist mean = none := by
    cases hc : check_dist mean with
    | none => rfl
    | some e =>
      unfold check_dist_and_k at h
      rw [hc] at h
      exact absurd h (by simp)
  have hk : check_k k = none := by
    unfold check_dist_and_k at h
    rwa [hd] at h
  obtain ⟨m, hm, hmp⟩ := check_dist_none hd
  obtain ⟨kv, hkv, hkn⟩ := check_k_none hk
  exact ⟨m, kv, hm, hkv, hmp, hkn⟩

/-! ### Unfolding the evaluators on validated inputs -/

theorem pdf_valid (C : Collaborators a) {m kv : a} (hm : 0 < m) (hk : 0 ≤ kv) :
    pdf C ⟨.finite m⟩ (.finite kv) = .ok (pdfBody C m kv) := by
  unfold pdf
  simp only [poisson_distribution.mean]
  rw [check_dist_and_k_valid hm hk]

theorem cdf_valid (C : Collaborators a) {m kv : a} (hm : 0 < m) (hk : 0 ≤ kv) :
    cdf C ⟨.finite m⟩ (.finite kv) = .ok (cdfBody C m kv) := by
  unfold cdf
  simp only [poisson_distribution.mean]
  rw [check_dist_and_k_valid hm hk]

theorem cdf_complement_valid (C : Collaborators a) {m kv : a}
    (hm : 0 < m) (hk : 0 ≤ kv) :
    cdf_complement C ⟨.finite m⟩ (.finite kv) = .ok (cdf_complementBody C m kv) := by
  unfold cdf_complement
  simp only [poisson_distribution.mean]
  rw [check_dist_and_k_valid hm hk]

/-- quantile on a finite nonzero mean (of either sign: the source checks the
mean only against 0) and an in-range probability reduces to the boundary
test against exp(-mean). -/
theorem quantile_unfold (C : Collaborators a) {m pv : a}
    (hm : m ≠ 0) (hp0 : 0 ≤ pv) (hp1 : pv ≤ 1) :
    quantile C ⟨.finite m⟩ (.finite pv) =
      if pv ≤ C.exp (-m) then .ok (.finite 0)
      else .ok (.finite (C.gamma_Q_inva m pv - 1)) := by
  unfold quantile
  simp only [poisson_distribution.mean]
  rw [check_prob_valid hp0 hp1]
  simp only [Fp.beq, decide_eq_true_eq, if_neg hm, Fp.negF, Collaborators.expF,
    Fp.ble]

theorem quantile_complement_unfold (C : Collaborators a) {m qv : a}
    (hm : m ≠ 0) (hq0 : 0 ≤ qv) (hq1 : qv ≤ 1) :
    quantile_complement C ⟨.finite m⟩ (.finite qv) =
      if -qv ≤ C.expm1 (-m) then .ok (.finite 0)
      else .ok (.finite (C.gamma_P_inva m qv - 1)) := by
  unfold quantile_complement
  simp only [poisson_distribution.mean]
  rw [check_prob_valid hq0 hq1]
  simp only [Fp.beq, decide_eq_true_eq, if_neg hm, Fp.negF, Collaborators.expm1F,
    Fp.ble]

/-- quantile at mean exactly 0: the inner check_mean_NZ necessarily fails for
every in-range p. -/
theorem quantile_zero_mean (C : Collaborators a) {pv : a}
    (hp0 : 0 ≤ pv) (hp1 : pv ≤ 1) :
    quantile C ⟨.finite 0⟩ (.finite pv) = .error (.meanNotPositive (.finite 0)) := by
  unfold quantile
  simp only [poisson_distribution.mean]
  rw [check_prob_valid hp0 hp1]
  have h0 : check_mean_NZ (Fp.finite (0:a)) = some (.meanNotPositive (.finite 0)) :=
    check_mean_NZ_fail (Or.inr (by simp [Fp.ble]))
  simp [Fp.beq, h0]

theorem quantile_complement_zero_mean (C : Collaborators a) {qv : a}
    (hq0 : 0 ≤ qv) (hq1 : qv ≤ 1) :
    quantile_complement C ⟨.finite 0⟩ (.finite qv) =
      .error (.meanNotPositive (.finite 0)) := by
  unfold quantile_complement
  simp only [poisson_distribution.mean]
  rw [check_prob_valid hq0 hq1]
  have h0 : check_mean_NZ (Fp.finite (0:a)) = some (.meanNotPositive (.finite 0)) :=
    check_mean_NZ_fail (Or.inr (by simp [Fp.ble]))
  simp [Fp.beq, h0]

/-- A mean failing check_dist (non-finite, or compared below-or-equal to 0)
produces the mean-must-be-positive error. -/
theorem check_dist_fail {mean : Fp a}
    (h : mean.isfinite = false ∨ mean.blt (.finite 0) = true) :
    check_dist mean = some (.meanNotPositive mean) := by
  rcases h with h | h
  · exact check_mean_NZ_fail (Or.inl h)
  · cases mean with
    | finite m =>
      refine check_mean_NZ_fail (Or.inr ?_)
      simp only [Fp.blt, decide_eq_true_eq] at h
      simp [Fp.ble, h.le]
    | posInf => simp [Fp.blt] at h
    | negInf => exact check_mean_NZ_fail (Or.inr (by simp [Fp.ble]))
    | nan => simp [Fp.blt] at h

theorem pdf_mean_error (C : Collaborators a) {mean : Fp a} (k : Fp a)
    {e : DomainError a} (h : check_dist mean = some e) :
    pdf C ⟨mean⟩ k = .error e := by
  unfold pdf check_dist_and_k
  simp only [poisson_distribution.mean]
  rw [h]

theorem cdf_mean_error (C : Collaborators a) {mean : Fp a} (k : Fp a)
    {e : DomainError a} (h : check_dist mean = some e) :
    cdf C ⟨mean⟩ k = .error e := by
  unfold cdf check_dist_and_k
  simp only [poisson_distribution.mean]
  rw [h]

theorem cdf_complement_mean_error (C : Collaborators a) {mean : Fp a} (k : Fp a)
    {e : DomainError a} (h : check_dist mean = some e) :
    cdf_complement C ⟨mean⟩ k = .error e := by
  unfold cdf_complement check_dist_and_k
  simp only [poisson_distribution.mean]
  rw [h]

/-- Exact value of the truncated Taylor series at -1, used in concrete
evaluations. -/
theorem qexpT_neg_one : qexpT (-1) = 176214841 / 479001600 := by
  norm_num [qexpT]

/-! ## The claims -/

/-- Claim C1.  The claim says pdf(0,k) = 0, cdf(0,k) = 0 and
cdfComplement(0,k) = 1 with no DomainError at mean 0.  The code disagrees:
check_dist delegates to check_mean_NZ, which rejects mean ≤ 0, so at mean =
0 all five evaluators report the mean-must-be-positive DomainError and the
`mean == 0` special-case branches of the arithmetic bodies — which do
return 0, 0 and 1, exactly as the claim states and as the source comments
("Probability for any k is zero") document — are unreachable.  The quantile
half of the claim (DomainError for every p, q) does hold. -/
theorem zero_mean_rejected_everywhere :
    pdf qCollab ⟨.finite 0⟩ (.finite 0) = .error (.meanNotPositive (.finite 0))
    ∧ cdf qCollab ⟨.finite 0⟩ (.finite 0) = .error (.meanNotPositive (.finite 0))
    ∧ cdf_complement qCollab ⟨.finite 0⟩ (.finite 0) =
        .error (.meanNotPositive (.finite 0))
    ∧ quantile qCollab ⟨.finite 0⟩ (.finite (1/2)) =
        .error (.meanNotPositive (.finite 0))
    ∧ quantile_complement qCollab ⟨.finite 0⟩ (.finite (1/2)) =
        .error (.meanNotPositive (.finite 0))
    ∧ pdfBody qCollab 0 0 = 0 ∧ cdfBody qCollab 0 0 = 0
    ∧ cdf_complementBody qCollab 0 0 = 1 := by
  have hd : check_dist (Fp.finite (0:ℚ)) = some (.meanNotPositive (.finite 0)) :=
    check_mean_NZ_fail (Or.inr (by simp [Fp.ble]))
  exact ⟨pdf_mean_error qCollab _ hd, cdf_mean_error qCollab _ hd,
    cdf_complement_mean_error qCollab _ hd,
    quantile_zero_mean qCollab (by norm_num) (by norm_num),
    quantile_complement_zero_mean qCollab (by norm_num) (by norm_num),
    by simp [pdfBody], by simp [cdfBody], by simp [cdf_complementBody]⟩

/-- Claim C2 counterexample: quantile with the negative mean -1 and the
valid probability 1/2 returns the computed value 0 — no DomainError is ever
produced, refuting "a non-finite or negative mean produces a DomainError
result before any computation ... for every evaluator in the public API,
including quantile". -/
theorem quantile_negative_mean_no_error :
    quantile qCollab ⟨.finite (-1)⟩ (.finite (1/2)) = .ok (.finite 0) := by
  rw [quantile_unfold qCollab (by norm_num) (by norm_num) (by norm_num)]
  rw [if_pos (by norm_num [qCollab, qexp, qexpT])]

/-- Claim C2 (amended).  pdf, cdf and the complemented cdf do reject a
non-finite or negative mean before any computation, for every k, producing
the mean DomainError.  quantile (and its complement), however, validate
only the probability and test the mean only against exactly 0: a finite
negative mean reaches the computation, and whenever p ≤ exp(-mean) the
quantile returns 0 with no error. -/
theorem mean_validation_coverage (C : Collaborators a) (mean k : Fp a)
    (h : mean.isfinite = false ∨ mean.blt (.finite 0) = true) :
    (pdf C ⟨mean⟩ k = .error (.meanNotPositive mean)
      ∧ cdf C ⟨mean⟩ k = .error (.meanNotPositive mean)
      ∧ cdf_complement C ⟨mean⟩ k = .error (.meanNotPositive mean))
    ∧ ∀ m pv : a, mean = .finite m → m < 0 → 0 ≤ pv → pv ≤ 1 →
        pv ≤ C.exp (-m) → quantile C ⟨mean⟩ (.finite pv) = .ok (.finite 0) := by
  have hd : check_dist mean = some (.meanNotPositive mean) := check_dist_fail h
  refine ⟨⟨pdf_mean_error C k hd, cdf_mean_error C k hd,
    cdf_complement_mean_error C k hd⟩, ?_⟩
  intro m pv hmeq hmneg hp0 hp1 hple
  subst hmeq
  rw [quantile_unfold C (ne_of_lt hmneg) hp0 hp1, if_pos hple]

theorem mean_validation_coverage_witness :
    pdf qCollab ⟨.finite (-1)⟩ (.finite 0) = .error (.meanNotPositive (.finite (-1)))
    ∧ quantile qCollab ⟨.finite (-1)⟩ (.finite (1/2)) = .ok (.finite 0) := by
  have h := mean_validation_coverage qCollab (.finite (-1)) (.finite 0)
    (Or.inr (by simp only [Fp.blt, decide_eq_true_eq]; norm_num))
  exact ⟨h.1.1, h.2 (-1) (1/2) rfl (by norm_num) (by norm_num) (by norm_num)
    (by norm_num [qCollab, qexp, qexpT])⟩

/-- Claim C3 counterexample.  With collaborators satisfying every property
the spec assumes of them (CollabOK), at λ = 1 and the valid probability
p = (3/2)·exp(-1) ∈ (0,1), quantile returns (3/2·exp(-1))/exp(-1) - 1 = 1/2
— not an integer, so not "the smallest integer k with cdf(λ,k) ≥ p" — and
the equivalent formulation in the claim also fails: cdf(λ, quantile - 1) is a
DomainError (the argument -1/2 is negative), not a value < p. -/
theorem quantile_not_smallest_integer :
    CollabOK qCollab
    ∧ (0 : ℚ) < 3/2 * qexp (-1) ∧ (3:ℚ)/2 * qexp (-1) < 1
    ∧ quantile qCollab ⟨.finite 1⟩ (.finite (3/2 * qexp (-1))) = .ok (.finite (1/2))
    ∧ (∀ n : ℤ, ((1:ℚ)/2) ≠ (n : ℚ))
    ∧ cdf qCollab ⟨.finite 1⟩ (.finite ((1/2 : ℚ) - 1)) =
        .error (.kInvalid (.finite ((1/2:ℚ) - 1))) := by
  refine ⟨qCollabOK, mul_pos (by norm_num) (qexp_pos (-1)),
    by norm_num [qexp, qexpT_neg_one], ?_, ?_, ?_⟩
  · rw [quantile_unfold qCollab (by norm_num)
      (le_of_lt (mul_pos (by norm_num) (qexp_pos (-1))))
      (by norm_num [qexp, qexpT_neg_one])]
    rw [if_neg (by norm_num [qCollab, qexp, qexpT_neg_one])]
    norm_num [qCollab, qexp, qexpT_neg_one]
  · intro n h
    have h2 : ((2 * n : ℤ) : ℚ) = 1 := by push_cast; linarith
    have h3 : (2 * n : ℤ) = 1 := by exact_mod_cast h2
    omega
  · unfold cdf check_dist_and_k
    simp only [poisson_distribution.mean]
    rw [check_dist_pos (by norm_num)]
    norm_num [check_k, Fp.blt, Fp.isfinite]

/-- Claim C3 (amended).  For collaborators satisfying the assumed
correctness properties, every λ > 0 and p ∈ (0,1): quantile returns the
continuous value gamma_Q_inva(λ,p) - 1 (not an integer in general); it is
non-negative, cdf(λ, quantile(λ,p)) is a value ≥ p, and when quantile(λ,p)
≥ 1 (so that the shifted argument stays in the domain of cdf),
cdf(λ, quantile(λ,p) - 1) is a value < p. -/
theorem quantile_roundtrip (C : Collaborators a) (hC : CollabOK C)
    {m pv : a} (hm : 0 < m) (hp0 : 0 < pv) (hp1 : pv < 1) :
    ∃ kq : a, quantile C ⟨.finite m⟩ (.finite pv) = .ok (.finite kq)
      ∧ 0 ≤ kq
      ∧ (∃ c : a, cdf C ⟨.finite m⟩ (.finite kq) = .ok c ∧ pv ≤ c)
      ∧ (1 ≤ kq →
          ∃ c : a, cdf C ⟨.finite m⟩ (.finite (kq - 1)) = .ok c ∧ c < pv) := by
  rw [quantile_unfold C hm.ne' hp0.le hp1.le]
  by_cases hb : pv ≤ C.exp (-m)
  · rw [if_pos hb]
    refine ⟨0, rfl, le_refl 0, ⟨C.exp (-m), ?_, hb⟩, ?_⟩
    · rw [cdf_valid C hm (le_refl 0)]
      unfold cdfBody
      rw [if_neg hm.ne', if_pos rfl]
    · intro h10
      exact absurd (lt_of_lt_of_le zero_lt_one h10) (lt_irrefl 0)
  · rw [if_neg hb]
    push_neg at hb
    have hivpos : 0 < C.gamma_Q_inva m pv := hC.gamma_Q_inva_pos m pv hm hp0 hp1
    have hiveq : C.gamma_Q (C.gamma_Q_inva m pv) m = pv :=
      hC.gamma_Q_inva_eq m pv hm hp0 hp1
    have hiv1 : 1 < C.gamma_Q_inva m pv := by
      by_contra hle
      push_neg at hle
      rcases eq_or_lt_of_le hle with he | hlt
      · rw [he, hC.gamma_Q_one m hm] at hiveq
        linarith
      · have hmono := hC.gamma_Q_mono (C.gamma_Q_inva m pv) 1 m hivpos hlt hm
        rw [hiveq, hC.gamma_Q_one m hm] at hmono
        linarith
    refine ⟨C.gamma_Q_inva m pv - 1, rfl, by linarith, ?_, ?_⟩
    · refine ⟨C.gamma_Q (C.gamma_Q_inva m pv - 1 + 1) m, ?_, ?_⟩
      · rw [cdf_valid C hm (by linarith)]
        unfold cdfBody
        rw [if_neg hm.ne', if_neg (by intro h0; linarith [sub_eq_zero.mp h0])]
      · have he : C.gamma_Q_inva m pv - 1 + 1 = C.gamma_Q_inva m pv := by ring
        rw [he, hiveq]
    · intro h1k
      by_cases hz : C.gamma_Q_inva m pv - 1 - 1 = 0
      · refine ⟨C.exp (-m), ?_, hb⟩
        rw [cdf_valid C hm (by linarith)]
        unfold cdfBody
        rw [if_neg hm.ne', if_pos hz]
      · refine ⟨C.gamma_Q (C.gamma_Q_inva m pv - 1 - 1 + 1) m, ?_, ?_⟩
        · rw [cdf_valid C hm (by linarith)]
          unfold cdfBody
          rw [if_neg hm.ne', if_neg hz]
        · have he : C.gamma_Q_inva m pv - 1 - 1 + 1 = C.gamma_Q_inva m pv - 1 := by
            ring
          rw [he]
          have hmono := hC.gamma_Q_mono (C.gamma_Q_inva m pv - 1)
            (C.gamma_Q_inva m pv) m (by linarith) (by linarith) hm
          rwa [hiveq] at hmono

theorem quantile_roundtrip_witness :
    ∃ kq : ℚ, quantile qCollab ⟨.finite 1⟩ (.finite (2 * qexp (-1))) = .ok (.finite kq)
      ∧ 0 ≤ kq
      ∧ (∃ c : ℚ, cdf qCollab ⟨.finite 1⟩ (.finite kq) = .ok c ∧ 2 * qexp (-1) ≤ c)
      ∧ (1 ≤ kq →
          ∃ c : ℚ, cdf qCollab ⟨.finite 1⟩ (.finite (kq - 1)) = .ok c
            ∧ c < 2 * qexp (-1)) :=
  quantile_roundtrip qCollab qCollabOK (by norm_num)
    (mul_pos (by norm_num) (qexp_pos (-1)))
    (by norm_num [qexp, qexpT_neg_one])

/-- Claim C4: for λ > 0 and finite k ≥ 0, pdf returns exp(-λ) at k = 0;
exp(-λ)·λ^k/k! through the exact factorial table when k is exactly
integral and below max_factorial; and exp(-λ + k·ln λ - lgamma(k+1))
otherwise. -/
theorem pdf_three_branches (C : Collaborators a) {m kv : a}
    (hm : 0 < m) (hk : 0 ≤ kv) :
    pdf C ⟨.finite m⟩ (.finite kv) = .ok (
      if kv = 0 then C.exp (-m)
      else if usesFactorialPath C kv then
        C.exp (-m) * m ^ (⌊kv⌋.toNat) / ((⌊kv⌋.toNat).factorial : a)
      else C.exp (-m + C.log m * kv - C.lgamma (kv + 1))) := by
  rw [pdf_valid C hm hk]
  unfold pdfBody
  rw [if_neg hm.ne']

theorem pdf_three_branches_witness :
    (0:ℚ) < 1 ∧ (0:ℚ) ≤ 2
    ∧ pdf qCollab ⟨.finite 1⟩ (.finite 2) = .ok (qexp (-1) * 1 ^ 2 / 2) := by
  refine ⟨by norm_num, by norm_num, ?_⟩
  rw [pdf_three_branches qCollab (by norm_num) (by norm_num)]
  norm_num [usesFactorialPath, qCollab, Nat.factorial]

/-- Claim C5: for λ > 0 and finite k ≥ 0, cdf returns exp(-λ) at k = 0 and
the regularized upper incomplete gamma gamma_Q(k+1, λ) for k > 0. -/
theorem cdf_two_branches (C : Collaborators a) {m kv : a}
    (hm : 0 < m) (hk : 0 ≤ kv) :
    cdf C ⟨.finite m⟩ (.finite kv) = .ok (
      if kv = 0 then C.exp (-m) else C.gamma_Q (kv + 1) m) := by
  rw [cdf_valid C hm hk]
  unfold cdfBody
  rw [if_neg hm.ne']

theorem cdf_two_branches_witness :
    (0:ℚ) < 1 ∧ (0:ℚ) ≤ 3
    ∧ cdf qCollab ⟨.finite 1⟩ (.finite 3) = .ok (4 * qexp (-1)) := by
  refine ⟨by norm_num, by norm_num, ?_⟩
  rw [cdf_two_branches qCollab (by norm_num) (by norm_num)]
  norm_num [qCollab]

/-- Claim C6: for λ > 0 and finite k ≥ 0, cdf and its complement are both
values and sum to exactly 1 (k = 0: exp(-λ) + (-expm1(-λ)) = 1; k > 0:
gamma_Q(k+1,λ) + gamma_P(k+1,λ) = 1). -/
theorem cdf_complement_sum (C : Collaborators a) (hC : CollabOK C)
    {m kv : a} (hm : 0 < m) (hk : 0 ≤ kv) :
    ∃ u v : a, cdf C ⟨.finite m⟩ (.finite kv) = .ok u
      ∧ cdf_complement C ⟨.finite m⟩ (.finite kv) = .ok v ∧ u + v = 1 := by
  rw [cdf_valid C hm hk, cdf_complement_valid C hm hk]
  refine ⟨_, _, rfl, rfl, ?_⟩
  unfold cdfBody cdf_complementBody
  rw [if_neg hm.ne', if_neg hm.ne']
  by_cases hk0 : kv = 0
  · rw [if_pos hk0, if_pos hk0, hC.expm1_eq]
    ring
  · rw [if_neg hk0, if_neg hk0]
    have hsum := hC.gamma_sum (kv + 1) m (by linarith) hm
    linarith

theorem cdf_complement_sum_witness :
    ∃ u v : ℚ, cdf qCollab ⟨.finite 1⟩ (.finite 2) = .ok u
      ∧ cdf_complement qCollab ⟨.finite 1⟩ (.finite 2) = .ok v ∧ u + v = 1 :=
  cdf_complement_sum qCollab qCollabOK (by norm_num) (by norm_num)

/-- Claim C7: for λ > 0 and q ∈ [0,1], the complemented quantile is a
value; it is 0 exactly when the literal comparison -q ≤ expm1(-λ) holds,
and equals gamma_P_inva(λ, q) - 1 otherwise. -/
theorem quantile_complement_branches (C : Collaborators a) (hC : CollabOK C)
    {m qv : a} (hm : 0 < m) (hq0 : 0 ≤ qv) (hq1 : qv ≤ 1) :
    ∃ r : a, quantile_complement C ⟨.finite m⟩ (.finite qv) = .ok (.finite r)
      ∧ (r = 0 ↔ -qv ≤ C.expm1 (-m))
      ∧ (¬(-qv ≤ C.expm1 (-m)) → r = C.gamma_P_inva m qv - 1) := by
  rw [quantile_complement_unfold C hm.ne' hq0 hq1]
  by_cases hb : -qv ≤ C.expm1 (-m)
  · rw [if_pos hb]
    exact ⟨0, rfl, iff_of_true rfl hb, fun h => absurd hb h⟩
  · rw [if_neg hb]
    have hne1 : C.gamma_P_inva m qv ≠ 1 := by
      intro hone
      have hblt : C.expm1 (-m) < -qv := not_le.mp hb
      rw [hC.expm1_eq] at hblt
      have hqlt : qv < 1 - C.exp (-m) := by linarith
      by_cases hq0s : qv = 0
      · rw [hq0s] at hone
        exact hC.gamma_P_inva_zero m hm hone
      · have hq0lt : 0 < qv := lt_of_le_of_ne hq0 (Ne.symm hq0s)
        have hq1s : qv < 1 := by linarith [hC.exp_pos (-m)]
        have hPeq : C.gamma_P (C.gamma_P_inva m qv) m = qv :=
          hC.gamma_P_inva_eq m qv hm hq0lt hq1s
        rw [hone] at hPeq
        have hsum := hC.gamma_sum 1 m zero_lt_one hm
        rw [hC.gamma_Q_one m hm] at hsum
        linarith
    refine ⟨C.gamma_P_inva m qv - 1, rfl,
      iff_of_false (fun h0 => hne1 (by linarith [sub_eq_zero.mp h0])) hb,
      fun _ => rfl⟩

theorem quantile_complement_branches_witness :
    ∃ r : ℚ, quantile_complement qCollab ⟨.finite 1⟩ (.finite (1/2)) = .ok (.finite r)
      ∧ (r = 0 ↔ -(1/2 : ℚ) ≤ qCollab.expm1 (-1))
      ∧ (¬(-(1/2:ℚ) ≤ qCollab.expm1 (-1)) → r = qCollab.gamma_P_inva 1 (1/2) - 1) :=
  quantile_complement_branches qCollab qCollabOK (by norm_num) (by norm_num)
    (by norm_num)

/-- Claim C8: for a valid mean λ > 0 the moment accessors return their
closed forms: mode = floor(λ), variance = λ, skewness = 1/sqrt(λ),
kurtosis excess = 1/λ, kurtosis = 3 + 1/λ. -/
theorem moment_accessors (C : Collaborators a) {m : a} (hm : 0 < m) :
    mode (⟨.finite m⟩ : poisson_distribution a) = .finite (⌊m⌋ : a)
    ∧ variance (⟨.finite m⟩ : poisson_distribution a) = .finite m
    ∧ skewness C ⟨.finite m⟩ = .finite (1 / C.sqrt m)
    ∧ kurtosis_excess (⟨.finite m⟩ : poisson_distribution a) = .finite (1 / m)
    ∧ kurtosis (⟨.finite m⟩ : poisson_distribution a) = .finite (3 + 1 / m) :=
  ⟨rfl, rfl, rfl, rfl, rfl⟩

theorem moment_accessors_witness :
    (0:ℚ) < 4
    ∧ mode (⟨.finite 4⟩ : poisson_distribution ℚ) = .finite 4
    ∧ variance (⟨.finite 4⟩ : poisson_distribution ℚ) = .finite 4
    ∧ kurtosis_excess (⟨.finite 4⟩ : poisson_distribution ℚ) = .finite (1/4)
    ∧ kurtosis (⟨.finite 4⟩ : poisson_distribution ℚ) = .finite (13/4) := by
  have h := moment_accessors qCollab (show (0:ℚ) < 4 by norm_num)
  refine ⟨by norm_num, ?_, h.2.1, ?_, ?_⟩
  · rw [h.1]
    norm_num
  · rw [h.2.2.2.1]
  · rw [h.2.2.2.2]
    norm_num

/-- Claim C9: whenever the factorial fast path in pdf is taken on a k accepted
by check_k, the index passed to the unchecked factorial table is an exact
non-negative integer representation of k and lies strictly below
max_factorial, so the unguarded table access is in bounds. -/
theorem factorial_path_safe (C : Collaborators a) {kv : a}
    (hk : check_k (.finite kv) = none) (hpath : usesFactorialPath C kv) :
    ((⌊kv⌋.toNat : a) = kv ∧ ⌊kv⌋.toNat < C.max_factorial) := by
  obtain ⟨kv2, heq, hnn⟩ := check_k_none hk
  have hkv : (0:a) ≤ kv := by injection heq with h; exact h ▸ hnn
  obtain ⟨hfl, hlt⟩ := hpath
  have hfl0 : 0 ≤ ⌊kv⌋ := Int.floor_nonneg.mpr hkv
  have hcast : ((⌊kv⌋.toNat : a)) = kv := by
    have h1 : ((⌊kv⌋.toNat : ℤ) : a) = (⌊kv⌋ : a) := by
      rw [Int.toNat_of_nonneg hfl0]
    calc ((⌊kv⌋.toNat : a)) = ((⌊kv⌋.toNat : ℤ) : a) := by push_cast; ring
    _ = (⌊kv⌋ : a) := h1
    _ = kv := hfl
  refine ⟨hcast, ?_⟩
  have hlt2 : ((⌊kv⌋.toNat : a)) < (C.max_factorial : a) := by rw [hcast]; exact hlt
  exact_mod_cast hlt2

theorem factorial_path_safe_witness :
    check_k (Fp.finite (5:ℚ)) = none ∧ usesFactorialPath qCollab (5:ℚ)
    ∧ ((⌊(5:ℚ)⌋.toNat : ℚ) = 5 ∧ ⌊(5:ℚ)⌋.toNat < qCollab.max_factorial) := by
  have h1 : check_k (Fp.finite (5:ℚ)) = none := check_k_nonneg (by norm_num)
  have h2 : usesFactorialPath qCollab (5:ℚ) := by
    constructor
    · norm_num
    · norm_num [qCollab]
  exact ⟨h1, h2, factorial_path_safe qCollab h1 h2⟩

/-- Claim C10: in the combined validators the mean is checked first: when
the mean fails check_dist, the produced error is the mean error
(meanNotPositive), and the combined check returns exactly that error
regardless of a simultaneously invalid k or p — the second check never
runs, so the result slot is written only by the first failing check. -/
theorem mean_checked_before_second_argument {mean k p : Fp a}
    {e ek ep : DomainError a}
    (hmean : check_dist mean = some e)
    (hk : check_k k = some ek) (hp : check_prob p = some ep) :
    e = .meanNotPositive mean
    ∧ check_dist_and_k mean k = some e
    ∧ check_dist_and_prob mean p = some e := by
  refine ⟨?_, ?_, ?_⟩
  · unfold check_dist check_mean_NZ at hmean
    split at hmean
    · injection hmean with h
      exact h.symm
    · exact absurd hmean (by simp)
  · unfold check_dist_and_k
    rw [hmean]
  · unfold check_dist_and_prob
    rw [hmean]

theorem mean_checked_before_second_argument_witness :
    check_dist (Fp.nan : Fp ℚ) = some (.meanNotPositive .nan)
    ∧ check_k (Fp.finite (-1:ℚ)) = some (.kInvalid (.finite (-1)))
    ∧ check_prob (Fp.finite (2:ℚ)) = some (.probInvalid (.finite 2))
    ∧ check_dist_and_k (Fp.nan : Fp ℚ) (.finite (-1)) =
        some (.meanNotPositive .nan)
    ∧ check_dist_and_prob (Fp.nan : Fp ℚ) (.finite 2) =
        some (.meanNotPositive .nan) := by
  have hm : check_dist (Fp.nan : Fp ℚ) = some (.meanNotPositive .nan) :=
    check_mean_NZ_fail (Or.inl rfl)
  have hk : check_k (Fp.finite (-1:ℚ)) = some (.kInvalid (.finite (-1))) := by
    norm_num [check_k, Fp.blt, Fp.isfinite]
  have hp : check_prob (Fp.finite (2:ℚ)) = some (.probInvalid (.finite 2)) := by
    norm_num [check_prob, Fp.blt, Fp.isfinite]
  have h := mean_checked_before_second_argument hm hk hp
  exact ⟨hm, hk, hp, h.2.1, h.2.2⟩

end Poisson
